import Mathlib

/-!
Verification of the rule-to-code translation layer of a compile-time
validation code generator (`validator_derive/src/quoting.rs`).

The generator consumes a per-field description (`FieldQuoter`: binding
identity, declared name, declared type string) and per-field rules
(`FieldValidation`), and emits code fragments.  Fragments are modelled by
the inductive `Tokens`, whose constructors are exactly the statement shapes
this generator emits; their runtime behaviour is given by `eval`, with the
external runtime validation library abstracted as an `Oracle`.

Rust type strings are modelled as their character lists, so that Rust's
`str::starts_with` is list prefix (`List.isPrefixOf`).  A generation-time
panic (`unreachable!()`, `.unwrap()` on a failed parse) is modelled by the
translators returning `none`.
-/

/-- Characters of the Rust type-string fragment `"Option<"`. -/
def optionPre : List Char := "Option<".toList

/-- Characters of `"Option<Option<"`. -/
def optionOptionPre : List Char := "Option<Option<".toList

/-- Characters of `"Option<&"`. -/
def optionAmpPre : List Char := "Option<&".toList

/-- Characters of `"Option<Option<&"`. -/
def optionOptionAmpPre : List Char := "Option<Option<&".toList

/-- Characters of `"&"`. -/
def ampPre : List Char := "&".toList

/-- Names of the bare fixed-size numeric primitive types. -/
def BARE_NUMBER_TYPES : List (List Char) :=
  ["usize", "u8", "u16", "u32", "u64", "isize", "i8", "i16", "i32", "i64",
   "f32", "f64"].map String.toList

/-- Declared type string for a single optional layer over `t`. -/
def optionWrap (t : List Char) : List Char := optionPre ++ t ++ ['>']

/-- Declared type string for a double optional layer over `t`. -/
def optionWrapTwice (t : List Char) : List Char :=
  optionOptionPre ++ t ++ ['>', '>']

/-- Modelled from the spec: the `NUMBER_TYPES` catalogue comes from the
missing `asserts` module (`use asserts::NUMBER_TYPES;` — not under `src/`).
The spec's type-shape classification asks of a declared type string whether
it is "a primitive-numeric type", and its unwrap-pattern rule is
unwrap-by-value "if the inner type is itself a reference or numeric
primitive", where the inner type sits under one or two optional layers; so
the catalogue holds the fixed numeric primitive names together with their
single and double `Option<...>` wrappings. -/
def NUMBER_TYPES : List (List Char) :=
  BARE_NUMBER_TYPES ++ BARE_NUMBER_TYPES.map optionWrap
    ++ BARE_NUMBER_TYPES.map optionWrapTwice

/-- Pass around all the information needed for creating a validation.
Mirrors `struct FieldQuoter { ident, name, _type }`; the declared type
string `_type` is kept as a character list. -/
structure FieldQuoter where
  ident : String
  name : String
  _type : List Char
deriving Repr, DecidableEq

/-- Token fragment produced for a field access: `#ident`, `self.#ident`,
or `&self.#ident`. -/
inductive Param where
  | unwrapped (ident : String)
  | selfVal (ident : String)
  | refSelf (ident : String)
deriving Repr, DecidableEq

/-- Binding pattern used inside an `if let Some(...)` guard: `#ident`
(unwrap by value) or `ref #ident` (unwrap by reference). -/
inductive Pat where
  | byValue (ident : String)
  | byRef (ident : String)
deriving Repr, DecidableEq

/-- Name bound by a pattern. -/
def Pat.ident : Pat → String
  | .byValue x => x
  | .byRef x => x

/-- Mirrors `FieldQuoter::quote_validator_param`: don't put a `&` in front
of a pointer, and just use the ident if the field is optional and will go
through an `if let` first. -/
def FieldQuoter.quote_validator_param (self : FieldQuoter) : Param :=
  if optionPre.isPrefixOf self._type then
    .unwrapped self.ident
  else if ampPre.isPrefixOf self._type || NUMBER_TYPES.contains self._type then
    .selfVal self.ident
  else
    .refSelf self.ident

/-- Mirrors `FieldQuoter::get_optional_validator_param`. -/
def FieldQuoter.get_optional_validator_param (self : FieldQuoter) : Pat :=
  if optionAmpPre.isPrefixOf self._type
      || optionOptionAmpPre.isPrefixOf self._type
      || NUMBER_TYPES.contains self._type then
    .byValue self.ident
  else
    .byRef self.ident

/-- Parsed code-level path, the model of `syn::Path`. -/
structure RustPath where
  segs : List String
deriving Repr, DecidableEq

/-- Rule-kind catalogue (`validator::Validator`, declared in the external
runtime crate; variants and payloads as used by `quoting.rs`).  The `f64`
bounds of `Range` are carried as integers here: generation only
interpolates these literals into the output, it never computes with
them. -/
inductive Validator where
  | length (min max equal : Option Nat)
  | range (min max : Int)
  | email
  | url
  | mustMatch (other : String)
  | custom (fn : String)
  | contains (needle : String)
  | regex (re : String)
  | creditCard
  | phone
deriving Repr, DecidableEq

/-- One declared field rule (`validation::FieldValidation`, declared in the
missing `validation` module; fields as used by `quoting.rs`: an error code,
an optional custom message, and the rule payload). -/
structure FieldValidation where
  code : String
  message : Option String
  validator : Validator
deriving Repr, DecidableEq

/-- The at-most-one whole-structure rule (`validation::SchemaValidation`;
fields as used by `quoting.rs`). -/
structure SchemaValidation where
  function : String
  message : Option String
  skip_on_field_errors : Bool
deriving Repr, DecidableEq

/-- Argument interpolated into a generated `err.add_param(key, &ARG)`. -/
inductive Arg where
  | natLit (n : Nat)
  | numLit (v : Int)
  | strLit (s : String)
  | param (p : Param)
  | selfField (ident : String)
deriving Repr, DecidableEq

/-- Expression handed to a check predicate: the accessed value bare, or
with an `as f64` cast. -/
inductive CExpr where
  | plain (p : Param)
  | asF64 (p : Param)
deriving Repr, DecidableEq

/-- The boolean check of a generated `if !CHECK { ... }`. -/
inductive Check where
  | length (min max equal : Option Nat) (arg : Param)
  | range (min max : Int) (arg : CExpr)
  | creditCard (arg : Param)
  | phone (arg : Param)
  | url (arg : Param)
  | email (arg : Param)
  | mustMatch (ident other : String)
  | contains (arg : Param) (needle : String)
  | regexMatch (re : RustPath) (arg : Param)
deriving Repr, DecidableEq

/-- Failure branch of a generated check: build the error from the rule's
code, optionally set the custom message, attach parameters in order, then
`errors.add(fieldName, err)`. -/
structure ErrBody where
  code : String
  message : Option String
  params : List (String × Arg)
  fieldName : String
deriving Repr, DecidableEq

/-- Generated fragments (`quote::Tokens`), as the closed set of statement
shapes this generator emits.  `schemaCheck`'s last component records
whether the `mut` token was emitted on the error binding. -/
inductive Tokens where
  | empty
  | seq (a b : Tokens)
  | ifLetSome (pat : Pat) (field : String) (body : Tokens)
  | ifLetSomeSome (pat : Pat) (field : String) (body : Tokens)
  | ifNotCheck (check : Check) (onFail : ErrBody)
  | customCheck (fn : RustPath) (arg : Param) (message : Option String)
      (fieldName : String)
  | schemaCheck (fn : String) (message : Option String) (mutTok : Bool)
  | ifEmptyErrors (body : Tokens)
deriving Repr, DecidableEq

/-- Mirrors `FieldQuoter::wrap_if_option`: wrap the quoted output of a
validation with an `if let Some` if the field type is an option. -/
def FieldQuoter.wrap_if_option (self : FieldQuoter) (tokens : Tokens) : Tokens :=
  let optional_pattern_matched := self.get_optional_validator_param
  if optionOptionPre.isPrefixOf self._type then
    .ifLetSomeSome optional_pattern_matched self.ident tokens
  else if optionPre.isPrefixOf self._type then
    .ifLetSome optional_pattern_matched self.ident tokens
  else
    tokens

/-- Mirrors `quote_error`: the data the generated
`let mut err = ValidationError::new(#code);` plus the optional message
assignment contribute to a failure branch. -/
def quote_error (validation : FieldValidation) : String × Option String :=
  (validation.code, validation.message)

/-- Mirrors `quote_length_validation`; `none` models the `unreachable!()`
panic on a rule-kind mismatch. -/
def quote_length_validation (field_quoter : FieldQuoter)
    (validation : FieldValidation) : Option Tokens :=
  let field_name := field_quoter.name
  let validator_param := field_quoter.quote_validator_param
  match validation.validator with
  | .length min max equal =>
    let min_err_param_quoted := match min with
      | some v => [("min", Arg.natLit v)]
      | none => []
    let max_err_param_quoted := match max with
      | some v => [("max", Arg.natLit v)]
      | none => []
    let equal_err_param_quoted := match equal with
      | some v => [("equal", Arg.natLit v)]
      | none => []
    let quoted_error := quote_error validation
    let quoted := Tokens.ifNotCheck (.length min max equal validator_param)
      { code := quoted_error.1
        message := quoted_error.2
        params := min_err_param_quoted ++ max_err_param_quoted
          ++ equal_err_param_quoted ++ [("value", Arg.param validator_param)]
        fieldName := field_name }
    some (field_quoter.wrap_if_option quoted)
  | _ => none

/-- Mirrors `quote_range_validation`; the accessed value is interpolated
with an `as f64` cast. -/
def quote_range_validation (field_quoter : FieldQuoter)
    (validation : FieldValidation) : Option Tokens :=
  let field_name := field_quoter.name
  let quoted_ident := field_quoter.quote_validator_param
  match validation.validator with
  | .range min max =>
    let quoted_error := quote_error validation
    let quoted := Tokens.ifNotCheck (.range min max (.asF64 quoted_ident))
      { code := quoted_error.1
        message := quoted_error.2
        params := [("min", Arg.numLit min), ("max", Arg.numLit max),
                   ("value", Arg.param quoted_ident)]
        fieldName := field_name }
    some (field_quoter.wrap_if_option quoted)
  | _ => none

/-- Mirrors `quote_credit_card_validation`; this translator never inspects
the rule kind. -/
def quote_credit_card_validation (field_quoter : FieldQuoter)
    (validation : FieldValidation) : Option Tokens :=
  let field_name := field_quoter.name
  let validator_param := field_quoter.quote_validator_param
  let quoted_error := quote_error validation
  let quoted := Tokens.ifNotCheck (.creditCard validator_param)
    { code := quoted_error.1
      message := quoted_error.2
      params := [("value", Arg.param validator_param)]
      fieldName := field_name }
  some (field_quoter.wrap_if_option quoted)

/-- Mirrors `quote_phone_validation` (behind `cfg(feature = "phone")`);
never inspects the rule kind. -/
def quote_phone_validation (field_quoter : FieldQuoter)
    (validation : FieldValidation) : Option Tokens :=
  let field_name := field_quoter.name
  let validator_param := field_quoter.quote_validator_param
  let quoted_error := quote_error validation
  let quoted := Tokens.ifNotCheck (.phone validator_param)
    { code := quoted_error.1
      message := quoted_error.2
      params := [("value", Arg.param validator_param)]
      fieldName := field_name }
  some (field_quoter.wrap_if_option quoted)

/-- Mirrors `quote_url_validation`; never inspects the rule kind. -/
def quote_url_validation (field_quoter : FieldQuoter)
    (validation : FieldValidation) : Option Tokens :=
  let field_name := field_quoter.name
  let validator_param := field_quoter.quote_validator_param
  let quoted_error := quote_error validation
  let quoted := Tokens.ifNotCheck (.url validator_param)
    { code := quoted_error.1
      message := quoted_error.2
      params := [("value", Arg.param validator_param)]
      fieldName := field_name }
  some (field_quoter.wrap_if_option quoted)

/-- Mirrors `quote_email_validation`; never inspects the rule kind. -/
def quote_email_validation (field_quoter : FieldQuoter)
    (validation : FieldValidation) : Option Tokens :=
  let field_name := field_quoter.name
  let validator_param := field_quoter.quote_validator_param
  let quoted_error := quote_error validation
  let quoted := Tokens.ifNotCheck (.email validator_param)
    { code := quoted_error.1
      message := quoted_error.2
      params := [("value", Arg.param validator_param)]
      fieldName := field_name }
  some (field_quoter.wrap_if_option quoted)

/-- Mirrors `quote_must_match_validation`: both fields are accessed as
`&self.#ident` and `&self.#other_ident`, bypassing the per-field access
strategy. -/
def quote_must_match_validation (field_quoter : FieldQuoter)
    (validation : FieldValidation) : Option Tokens :=
  let ident := field_quoter.ident
  let field_name := field_quoter.name
  match validation.validator with
  | .mustMatch other =>
    let quoted_error := quote_error validation
    let quoted := Tokens.ifNotCheck (.mustMatch ident other)
      { code := quoted_error.1
        message := quoted_error.2
        params := [("value", Arg.selfField ident),
                   ("other", Arg.selfField other)]
        fieldName := field_name }
    some (field_quoter.wrap_if_option quoted)
  | _ => none

/-- Character allowed inside a Rust identifier. -/
def isIdentChar (c : Char) : Bool := c.isAlphanum || c = '_'

/-- Valid Rust identifier segment: nonempty, identifier characters only,
not starting with a digit. -/
def isIdentSeg : List Char → Bool
  | [] => false
  | c :: cs => (c.isAlpha || c = '_') && cs.all isIdentChar

/-- Split of a character list at each `"::"` separator, leftmost first. -/
def splitPath : List Char → List (List Char)
  | [] => [[]]
  | ':' :: ':' :: rest => [] :: splitPath rest
  | c :: rest =>
    match splitPath rest with
    | s :: ss => (c :: s) :: ss
    | [] => [[c]]

/-- Model of the external `syn::parse_str::<syn::Path>` by its contract: a
path is one or more `::`-separated identifier segments, and anything else
fails to parse.  Parsing never consults the program's symbols; whether the
named item exists is left to the final compilation. -/
def parseRustPath (s : String) : Option RustPath :=
  let segs := splitPath s.toList
  if segs.all isIdentSeg then some ⟨segs.map (fun l => ⟨l⟩)⟩ else none

/-- Mirrors `quote_custom_validation`; `none` models both the rule-kind
`unreachable!()` and the panic of `syn::parse_str(fun).unwrap()` on an
unparseable path. -/
def quote_custom_validation (field_quoter : FieldQuoter)
    (validation : FieldValidation) : Option Tokens :=
  let field_name := field_quoter.name
  let validator_param := field_quoter.quote_validator_param
  match validation.validator with
  | .custom fn =>
    match parseRustPath fn with
    | none => none
    | some fn_ident =>
      some (field_quoter.wrap_if_option
        (.customCheck fn_ident validator_param validation.message field_name))
  | _ => none

/-- Mirrors `quote_contains_validation`. -/
def quote_contains_validation (field_quoter : FieldQuoter)
    (validation : FieldValidation) : Option Tokens :=
  let field_name := field_quoter.name
  let validator_param := field_quoter.quote_validator_param
  match validation.validator with
  | .contains needle =>
    let quoted_error := quote_error validation
    let quoted := Tokens.ifNotCheck (.contains validator_param needle)
      { code := quoted_error.1
        message := quoted_error.2
        params := [("value", Arg.param validator_param),
                   ("needle", Arg.strLit needle)]
        fieldName := field_name }
    some (field_quoter.wrap_if_option quoted)
  | _ => none

/-- Mirrors `quote_regex_validation`; `none` models both the rule-kind
`unreachable!()` and the panic of `syn::parse_str(re).unwrap()`. -/
def quote_regex_validation (field_quoter : FieldQuoter)
    (validation : FieldValidation) : Option Tokens :=
  let field_name := field_quoter.name
  let validator_param := field_quoter.quote_validator_param
  match validation.validator with
  | .regex re =>
    match parseRustPath re with
    | none => none
    | some re_ident =>
      let quoted_error := quote_error validation
      let quoted := Tokens.ifNotCheck (.regexMatch re_ident validator_param)
        { code := quoted_error.1
          message := quoted_error.2
          params := [("value", Arg.param validator_param)]
          fieldName := field_name }
      some (field_quoter.wrap_if_option quoted)
  | _ => none

/-- Mirrors `quote_field_validation`, the dispatch table over rule kinds. -/
def quote_field_validation (field_quoter : FieldQuoter)
    (validation : FieldValidation) : Option Tokens :=
  match validation.validator with
  | .length _ _ _ => quote_length_validation field_quoter validation
  | .range _ _ => quote_range_validation field_quoter validation
  | .email => quote_email_validation field_quoter validation
  | .url => quote_url_validation field_quoter validation
  | .mustMatch _ => quote_must_match_validation field_quoter validation
  | .custom _ => quote_custom_validation field_quoter validation
  | .contains _ => quote_contains_validation field_quoter validation
  | .regex _ => quote_regex_validation field_quoter validation
  | .creditCard => quote_credit_card_validation field_quoter validation
  | .phone => quote_phone_validation field_quoter validation

/-- Mirrors `quote_schema_validation`: the whole-structure rule, recorded
under the reserved key; when `skip_on_field_errors` is set the match is
wrapped in an emptiness guard on the error collection. -/
def quote_schema_validation (validation : Option SchemaValidation) : Tokens :=
  match validation with
  | some v =>
    let quoted := Tokens.schemaCheck v.function v.message v.message.isSome
    if !v.skip_on_field_errors then quoted
    else .ifEmptyErrors quoted
  | none => .empty

/-- Runtime value of one field of the structure instance, stratified by the
optional nesting of its declared type. -/
inductive FieldVal where
  | plain (v : Int)
  | opt (v : Option Int)
  | opt2 (v : Option (Option Int))
deriving Repr, DecidableEq

/-- Runtime values flowing into predicates and diagnostic parameters. -/
inductive RVal where
  | num (n : Nat)
  | fnum (v : Int)
  | str (s : String)
  | v (x : Int)
  | fv (x : FieldVal)
  | undef
deriving Repr, DecidableEq

/-- Structured runtime validation error (`validator::ValidationError` by
its contract: a code, an optional overridable message, keyed parameters). -/
structure VError where
  code : String
  message : Option String
  params : List (String × RVal)
deriving Repr, DecidableEq

/-- Runtime state of the generated procedure: the keyed error collection
(keyed insertion preserves order) together with a count of how many times
the whole-structure function was invoked. -/
structure EvalSt where
  errors : List (String × VError)
  schemaCalls : Nat
deriving Repr, DecidableEq

/-- The external runtime validation library and the user-named functions,
by contract: opaque predicates the generated code calls by fixed name. -/
structure Oracle where
  validateLength : Option Nat → Option Nat → Option Nat → RVal → Bool
  validateRange : Int → Int → RVal → Bool
  toF64 : RVal → RVal
  validateCreditCard : RVal → Bool
  validatePhone : RVal → Bool
  validateUrl : RVal → Bool
  validateEmail : RVal → Bool
  validateContains : RVal → String → Bool
  regexIsMatch : RustPath → RVal → Bool
  customFn : RustPath → RVal → Option VError
  schemaFn : String → Option VError

/-- Contract of `validator::validate_must_match`: comparison by equality. -/
def validate_must_match (a b : FieldVal) : Bool := a = b

/-- Structure instance: runtime value of each field. -/
abbrev Inst := String → FieldVal

/-- Local bindings introduced by `if let` guards. -/
abbrev Env := String → Option Int

/-- Extend the local environment with one binding. -/
def updEnv (env : Env) (x : String) (v : Int) : Env :=
  fun y => if y = x then some v else env y

/-- Runtime value of an access-parameter token. -/
def evalParam (inst : Inst) (env : Env) : Param → RVal
  | .unwrapped x =>
    match env x with
    | some v => .v v
    | none => .undef
  | .selfVal x => .fv (inst x)
  | .refSelf x => .fv (inst x)

/-- Runtime value of an `add_param` argument. -/
def evalArg (inst : Inst) (env : Env) : Arg → RVal
  | .natLit n => .num n
  | .numLit v => .fnum v
  | .strLit s => .str s
  | .param p => evalParam inst env p
  | .selfField x => .fv (inst x)

/-- Runtime value of a check argument expression. -/
def evalCExpr (o : Oracle) (inst : Inst) (env : Env) : CExpr → RVal
  | .plain p => evalParam inst env p
  | .asF64 p => o.toF64 (evalParam inst env p)

/-- Runtime truth of a generated check. -/
def evalCheck (o : Oracle) (inst : Inst) (env : Env) : Check → Bool
  | .length min max equal p => o.validateLength min max equal (evalParam inst env p)
  | .range min max e => o.validateRange min max (evalCExpr o inst env e)
  | .creditCard p => o.validateCreditCard (evalParam inst env p)
  | .phone p => o.validatePhone (evalParam inst env p)
  | .url p => o.validateUrl (evalParam inst env p)
  | .email p => o.validateEmail (evalParam inst env p)
  | .mustMatch a b => validate_must_match (inst a) (inst b)
  | .contains p needle => o.validateContains (evalParam inst env p) needle
  | .regexMatch re p => o.regexIsMatch re (evalParam inst env p)

/-- Error built by a failure branch. -/
def mkErr (inst : Inst) (env : Env) (e : ErrBody) : VError :=
  { code := e.code
    message := e.message
    params := e.params.map (fun kv => (kv.1, evalArg inst env kv.2)) }

/-- Apply the optional declared message to a returned error
(`err.message = Some(m);` when declared, else keep the error's own). -/
def applyMessage (m : Option String) (e : VError) : VError :=
  match m with
  | some s => { e with message := some s }
  | none => e

/-- Big-step runtime semantics of a generated fragment. -/
def eval (o : Oracle) (inst : Inst) (env : Env) : Tokens → EvalSt → EvalSt
  | .empty, st => st
  | .seq a b, st => eval o inst env b (eval o inst env a st)
  | .ifLetSome pat fld body, st =>
    match inst fld with
    | .opt (some v) => eval o inst (updEnv env pat.ident v) body st
    | _ => st
  | .ifLetSomeSome pat fld body, st =>
    match inst fld with
    | .opt2 (some (some v)) => eval o inst (updEnv env pat.ident v) body st
    | _ => st
  | .ifNotCheck chk onFail, st =>
    if evalCheck o inst env chk then st
    else { st with
      errors := st.errors ++ [(onFail.fieldName, mkErr inst env onFail)] }
  | .customCheck fn arg msg fieldName, st =>
    match o.customFn fn (evalParam inst env arg) with
    | none => st
    | some err =>
      let err1 := applyMessage msg err
      let err2 := { err1 with
        params := err1.params ++ [("value", evalParam inst env arg)] }
      { st with errors := st.errors ++ [(fieldName, err2)] }
  | .schemaCheck fn msg _, st =>
    let st1 := { st with schemaCalls := st.schemaCalls + 1 }
    match o.schemaFn fn with
    | none => st1
    | some err =>
      { st1 with errors := st1.errors ++ [("__all__", applyMessage msg err)] }
  | .ifEmptyErrors body, st =>
    if st.errors.isEmpty then eval o inst env body st else st

/-- Concatenation of fragments. -/
def seqAll (l : List Tokens) : Tokens := l.foldr .seq .empty

/-- Modelled from the spec: the Structure Assembler (the derive-expansion
code concatenating fragments is not under `src/`).  Spec §4.3: "the
assembler must emit all per-field fragments first, then the whole-structure
fragment". -/
def assemble (fieldFragments : List Tokens)
    (schema : Option SchemaValidation) : Tokens :=
  seqAll (fieldFragments ++ [quote_schema_validation schema])

/-- Whether a fragment contains a whole-structure check anywhere. -/
def Tokens.hasSchemaCall : Tokens → Bool
  | .empty => false
  | .seq a b => a.hasSchemaCall || b.hasSchemaCall
  | .ifLetSome _ _ b => b.hasSchemaCall
  | .ifLetSomeSome _ _ b => b.hasSchemaCall
  | .ifNotCheck _ _ => false
  | .customCheck _ _ _ _ => false
  | .schemaCheck _ _ _ => true
  | .ifEmptyErrors b => b.hasSchemaCall

/-- Parameters attached in the failure branch of a generated check, looking
through optional-unwrap guards. -/
def failureParams : Tokens → List (String × Arg)
  | .ifLetSome _ _ b => failureParams b
  | .ifLetSomeSome _ _ b => failureParams b
  | .ifNotCheck _ e => e.params
  | _ => []

/-- Check of a generated fragment, through optional-unwrap guards. -/
def checkOf : Tokens → Option Check
  | .ifLetSome _ _ b => checkOf b
  | .ifLetSomeSome _ _ b => checkOf b
  | .ifNotCheck c _ => some c
  | _ => none

/-! ### Facts about the Rust type-string prefixes -/

theorem optionOptionPre_eq : optionOptionPre = optionPre ++ optionPre := by decide

theorem optionAmpPre_eq : optionAmpPre = optionPre ++ ampPre := by decide

theorem optionOptionAmpPre_eq :
    optionOptionAmpPre = optionPre ++ (optionPre ++ ampPre) := by decide

theorem bare_not_option : ∀ n ∈ BARE_NUMBER_TYPES, ¬ (optionPre <+: n) := by
  decide

theorem gt_not_mem_optionPre : '>' ∉ optionPre := by decide

theorem optionPre_prefix_wrap (u : List Char) : optionPre <+: optionWrap u := by
  rw [optionWrap, List.append_assoc]
  exact List.prefix_append _ _

theorem optionPre_prefix_wrap2 (u : List Char) :
    optionPre <+: optionWrapTwice u := by
  rw [optionWrapTwice, optionOptionPre_eq, List.append_assoc, List.append_assoc]
  exact List.prefix_append _ _

theorem prefix_append_gt_elim {p u : List Char} (hgt : '>' ∉ p)
    (hc : p <+: u ++ ['>']) : p <+: u := by
  rcases List.prefix_concat_iff.mp hc with heq | hp
  · exact absurd (heq ▸ List.mem_append_right u (List.mem_singleton.mpr rfl)) hgt
  · exact hp

theorem prefix_append_gtgt_elim {p u : List Char} (hgt : '>' ∉ p)
    (hc : p <+: u ++ ['>', '>']) : p <+: u := by
  have he : u ++ ['>', '>'] = (u ++ ['>']) ++ ['>'] := by simp
  exact prefix_append_gt_elim hgt (prefix_append_gt_elim hgt (he ▸ hc))

theorem contains_iff_mem {l : List (List Char)} {t : List Char} :
    l.contains t = true ↔ t ∈ l := by
  simp [List.contains]

theorem mem_NUMBER_TYPES_iff {t : List Char} :
    t ∈ NUMBER_TYPES ↔ t ∈ BARE_NUMBER_TYPES
      ∨ (∃ n ∈ BARE_NUMBER_TYPES, optionWrap n = t)
      ∨ (∃ n ∈ BARE_NUMBER_TYPES, optionWrapTwice n = t) := by
  simp [NUMBER_TYPES, List.mem_append, List.mem_map]

theorem optionWrap_inj {u n : List Char} (h : optionWrap u = optionWrap n) :
    u = n := by
  rw [optionWrap, optionWrap] at h
  exact (List.append_right_inj _).mp ((List.append_left_inj _).mp h)

theorem optionWrapTwice_inj {u n : List Char}
    (h : optionWrapTwice u = optionWrapTwice n) : u = n := by
  rw [optionWrapTwice, optionWrapTwice] at h
  exact (List.append_right_inj _).mp ((List.append_left_inj _).mp h)

theorem optionWrap_ne_wrapTwice {u n : List Char} (hu : ¬ optionPre <+: u) :
    optionWrap u ≠ optionWrapTwice n := by
  intro h
  rw [optionWrap, optionWrapTwice, optionOptionPre_eq] at h
  simp only [List.append_assoc] at h
  have h2 : u ++ ['>'] = optionPre ++ (n ++ ['>', '>']) :=
    (List.append_right_inj _).mp h
  exact hu (prefix_append_gt_elim gt_not_mem_optionPre ⟨_, h2.symm⟩)

theorem optionWrapTwice_ne_wrap {u n : List Char} (hn : ¬ optionPre <+: n) :
    optionWrapTwice u ≠ optionWrap n := by
  intro h
  rw [optionWrap, optionWrapTwice, optionOptionPre_eq] at h
  simp only [List.append_assoc] at h
  have h2 : optionPre ++ (u ++ ['>', '>']) = n ++ ['>'] :=
    (List.append_right_inj _).mp h
  exact hn (prefix_append_gt_elim gt_not_mem_optionPre ⟨_, h2⟩)

theorem wrap_mem_NUMBER_TYPES {u : List Char} (hu : ¬ optionPre <+: u) :
    (optionWrap u ∈ NUMBER_TYPES ↔ u ∈ BARE_NUMBER_TYPES) := by
  rw [mem_NUMBER_TYPES_iff]
  constructor
  · rintro (hb | ⟨n, hn, he⟩ | ⟨n, hn, he⟩)
    · exact absurd (optionPre_prefix_wrap u) (bare_not_option _ hb)
    · exact (optionWrap_inj he.symm) ▸ hn
    · exact absurd he.symm (optionWrap_ne_wrapTwice hu)
  · intro hb
    exact Or.inr (Or.inl ⟨u, hb, rfl⟩)

theorem wrapTwice_mem_NUMBER_TYPES {u : List Char} :
    (optionWrapTwice u ∈ NUMBER_TYPES ↔ u ∈ BARE_NUMBER_TYPES) := by
  rw [mem_NUMBER_TYPES_iff]
  constructor
  · rintro (hb | ⟨n, hn, he⟩ | ⟨n, hn, he⟩)
    · exact absurd (optionPre_prefix_wrap2 u) (bare_not_option _ hb)
    · exact absurd he.symm (optionWrapTwice_ne_wrap (bare_not_option _ hn))
    · exact (optionWrapTwice_inj he.symm) ▸ hn
  · intro hb
    exact Or.inr (Or.inr ⟨u, hb, rfl⟩)

theorem mem_NUMBER_TYPES_of_not_option {t : List Char}
    (h : ¬ optionPre <+: t) :
    (t ∈ NUMBER_TYPES ↔ t ∈ BARE_NUMBER_TYPES) := by
  rw [mem_NUMBER_TYPES_iff]
  constructor
  · rintro (hb | ⟨n, _, he⟩ | ⟨n, _, he⟩)
    · exact hb
    · exact absurd (he ▸ optionPre_prefix_wrap n) h
    · exact absurd (he ▸ optionPre_prefix_wrap2 n) h
  · exact Or.inl

theorem amp_not_gt : '>' ∉ ampPre := by decide

theorem optionAmp_prefix_wrap_iff {u : List Char} :
    (optionAmpPre <+: optionWrap u ↔ ampPre <+: u) := by
  rw [optionAmpPre_eq, optionWrap, List.append_assoc,
    List.prefix_append_right_inj]
  constructor
  · exact fun h => prefix_append_gt_elim amp_not_gt h
  · exact fun h => h.trans (List.prefix_append u ['>'])

theorem not_optionOptionAmp_prefix_wrap {u : List Char}
    (hu : ¬ optionPre <+: u) : ¬ optionOptionAmpPre <+: optionWrap u := by
  rw [optionOptionAmpPre_eq, optionWrap, List.append_assoc,
    List.prefix_append_right_inj]
  intro hc
  exact hu (prefix_append_gt_elim gt_not_mem_optionPre
    ((List.prefix_append optionPre ampPre).trans hc))

theorem not_optionAmp_prefix_wrapTwice {u : List Char} :
    ¬ optionAmpPre <+: optionWrapTwice u := by
  rw [optionAmpPre_eq, optionWrapTwice, optionOptionPre_eq,
    List.append_assoc, List.append_assoc, List.prefix_append_right_inj]
  have ho : optionPre ++ (u ++ ['>', '>']) = 'O' ::
      ("ption<".toList ++ (u ++ ['>', '>'])) := by rfl
  rw [ho]
  intro hc
  have : '&' = 'O' := (List.cons_prefix_cons.mp hc).1
  exact absurd this (by decide)

theorem optionOptionAmp_prefix_wrapTwice_iff {u : List Char} :
    (optionOptionAmpPre <+: optionWrapTwice u ↔ ampPre <+: u) := by
  rw [optionOptionAmpPre_eq, optionWrapTwice, optionOptionPre_eq,
    List.append_assoc, List.append_assoc, List.prefix_append_right_inj,
    List.prefix_append_right_inj]
  constructor
  · exact fun h => prefix_append_gtgt_elim amp_not_gt h
  · exact fun h => h.trans (List.prefix_append u ['>', '>'])

theorem isPrefixOf_eq_true {a b : List Char} (h : a <+: b) :
    a.isPrefixOf b = true :=
  List.isPrefixOf_iff_prefix.mpr h

theorem isPrefixOf_eq_false {a b : List Char} (h : ¬ a <+: b) :
    a.isPrefixOf b = false := by
  rw [Bool.eq_false_iff]
  intro hc
  exact h (List.isPrefixOf_iff_prefix.mp hc)

theorem contains_eq_true {l : List (List Char)} {t : List Char} (h : t ∈ l) :
    l.contains t = true :=
  contains_iff_mem.mpr h

theorem contains_eq_false {l : List (List Char)} {t : List Char} (h : t ∉ l) :
    l.contains t = false := by
  rw [Bool.eq_false_iff]
  intro hc
  exact h (contains_iff_mem.mp hc)

/-- C3: for every field, `quote_validator_param` produces the bare unwrapped
binding when the declared type starts with `Option<`; the field's value
`self.ident` when the type is a reference type or a known numeric primitive;
and the explicit reference `&self.ident` in every other case. -/
theorem quote_validator_param_spec (id nm : String) (t : List Char) :
    (optionPre <+: t →
      FieldQuoter.quote_validator_param ⟨id, nm, t⟩ = .unwrapped id)
    ∧ (¬ optionPre <+: t → (ampPre <+: t ∨ t ∈ BARE_NUMBER_TYPES) →
        FieldQuoter.quote_validator_param ⟨id, nm, t⟩ = .selfVal id)
    ∧ (¬ optionPre <+: t → ¬ ampPre <+: t → t ∉ BARE_NUMBER_TYPES →
        FieldQuoter.quote_validator_param ⟨id, nm, t⟩ = .refSelf id) := by
  refine ⟨fun h1 => ?_, fun h1 h2 => ?_, fun h1 h2 h3 => ?_⟩
  · simp only [FieldQuoter.quote_validator_param, isPrefixOf_eq_true h1,
      if_true]
  · have hmem : (ampPre.isPrefixOf t || NUMBER_TYPES.contains t) = true := by
      rw [Bool.or_eq_true]
      rcases h2 with h | h
      · exact Or.inl (isPrefixOf_eq_true h)
      · refine Or.inr (contains_eq_true ?_)
        rw [NUMBER_TYPES]
        exact List.mem_append_left _ (List.mem_append_left _ h)
    simp only [FieldQuoter.quote_validator_param, isPrefixOf_eq_false h1,
      hmem]
    rfl
  · have hmem : NUMBER_TYPES.contains t = false :=
      contains_eq_false
        (fun hc => h3 ((mem_NUMBER_TYPES_of_not_option h1).mp hc))
    simp only [FieldQuoter.quote_validator_param, isPrefixOf_eq_false h1,
      isPrefixOf_eq_false h2, hmem]
    rfl

/-- C2: for a field whose declared type is optional — one layer
(`Option<u>`) or two (`Option<Option<u>>`) over an inner type `u` that is
itself not optional — the unwrap pattern is by-value (bare identifier)
exactly when the inner type is a reference or a known numeric primitive,
and by-reference (`ref` identifier) otherwise. -/
theorem get_optional_validator_param_spec (id nm : String) (u : List Char)
    (hu : ¬ optionPre <+: u) :
    (FieldQuoter.get_optional_validator_param ⟨id, nm, optionWrap u⟩
        = .byValue id ↔ (ampPre <+: u ∨ u ∈ BARE_NUMBER_TYPES))
    ∧ (FieldQuoter.get_optional_validator_param ⟨id, nm, optionWrap u⟩
        = .byRef id ↔ ¬ (ampPre <+: u ∨ u ∈ BARE_NUMBER_TYPES))
    ∧ (FieldQuoter.get_optional_validator_param ⟨id, nm, optionWrapTwice u⟩
        = .byValue id ↔ (ampPre <+: u ∨ u ∈ BARE_NUMBER_TYPES))
    ∧ (FieldQuoter.get_optional_validator_param ⟨id, nm, optionWrapTwice u⟩
        = .byRef id ↔ ¬ (ampPre <+: u ∨ u ∈ BARE_NUMBER_TYPES)) := by
  by_cases hC : ampPre <+: u ∨ u ∈ BARE_NUMBER_TYPES
  · have h1 : (optionAmpPre.isPrefixOf (optionWrap u)
        || optionOptionAmpPre.isPrefixOf (optionWrap u)
        || NUMBER_TYPES.contains (optionWrap u)) = true := by
      rcases hC with h | h
      · simp only [isPrefixOf_eq_true (optionAmp_prefix_wrap_iff.mpr h),
          Bool.true_or]
      · simp only [contains_eq_true ((wrap_mem_NUMBER_TYPES hu).mpr h),
          Bool.or_true]
    have h2 : (optionAmpPre.isPrefixOf (optionWrapTwice u)
        || optionOptionAmpPre.isPrefixOf (optionWrapTwice u)
        || NUMBER_TYPES.contains (optionWrapTwice u)) = true := by
      rcases hC with h | h
      · simp only
          [isPrefixOf_eq_true (optionOptionAmp_prefix_wrapTwice_iff.mpr h),
            Bool.or_true, Bool.true_or]
      · simp only [contains_eq_true (wrapTwice_mem_NUMBER_TYPES.mpr h),
          Bool.or_true]
    simp only [FieldQuoter.get_optional_validator_param, h1, h2]
    simp [hC]
  · have h1 : (optionAmpPre.isPrefixOf (optionWrap u)
        || optionOptionAmpPre.isPrefixOf (optionWrap u)
        || NUMBER_TYPES.contains (optionWrap u)) = false := by
      push_neg at hC
      rw [isPrefixOf_eq_false
          (fun hc => hC.1 (optionAmp_prefix_wrap_iff.mp hc)),
        isPrefixOf_eq_false (not_optionOptionAmp_prefix_wrap hu),
        contains_eq_false
          (fun hc => hC.2 ((wrap_mem_NUMBER_TYPES hu).mp hc))]
      rfl
    have h2 : (optionAmpPre.isPrefixOf (optionWrapTwice u)
        || optionOptionAmpPre.isPrefixOf (optionWrapTwice u)
        || NUMBER_TYPES.contains (optionWrapTwice u)) = false := by
      push_neg at hC
      rw [isPrefixOf_eq_false not_optionAmp_prefix_wrapTwice,
        isPrefixOf_eq_false
          (fun hc => hC.1 (optionOptionAmp_prefix_wrapTwice_iff.mp hc)),
        contains_eq_false
          (fun hc => hC.2 (wrapTwice_mem_NUMBER_TYPES.mp hc))]
      rfl
    simp only [FieldQuoter.get_optional_validator_param, h1, h2]
    simp [hC]

theorem get_optional_validator_param_ident (fq : FieldQuoter) :
    (fq.get_optional_validator_param).ident = fq.ident := by
  rw [FieldQuoter.get_optional_validator_param]
  split <;> rfl

theorem optionPre_prefix_of_optionOptionPre {t : List Char}
    (h : optionOptionPre <+: t) : optionPre <+: t :=
  (by decide : optionPre <+: optionOptionPre).trans h

theorem wrap_if_option_id {fq : FieldQuoter} (t : Tokens)
    (h : ¬ optionPre <+: fq._type) : fq.wrap_if_option t = t := by
  have hno : ¬ optionOptionPre <+: fq._type :=
    fun hc => h (optionPre_prefix_of_optionOptionPre hc)
  simp only [FieldQuoter.wrap_if_option, isPrefixOf_eq_false hno,
    isPrefixOf_eq_false h]
  rfl

/-- C1: `wrap_if_option` nests the fragment inside two present-guards when
the declared type starts with `Option<Option<`, inside exactly one when it
starts with `Option<` (single layer), and returns it unmodified otherwise;
at runtime the wrapped check runs exactly when every optional layer is
present, and absence at any layer leaves the evaluation state — in
particular the error collection — unchanged, so that rule produces zero
errors. -/
theorem wrap_if_option_spec (fq : FieldQuoter) (tokens : Tokens) (o : Oracle)
    (inst : Inst) (env : Env) (st : EvalSt) :
    (optionOptionPre <+: fq._type →
      fq.wrap_if_option tokens
        = .ifLetSomeSome fq.get_optional_validator_param fq.ident tokens
      ∧ (∀ v, inst fq.ident = .opt2 (some (some v)) →
          eval o inst env (fq.wrap_if_option tokens) st
            = eval o inst (updEnv env fq.ident v) tokens st)
      ∧ ((inst fq.ident = .opt2 none ∨ inst fq.ident = .opt2 (some none)) →
          eval o inst env (fq.wrap_if_option tokens) st = st))
    ∧ (optionPre <+: fq._type → ¬ optionOptionPre <+: fq._type →
        fq.wrap_if_option tokens
          = .ifLetSome fq.get_optional_validator_param fq.ident tokens
        ∧ (∀ v, inst fq.ident = .opt (some v) →
            eval o inst env (fq.wrap_if_option tokens) st
              = eval o inst (updEnv env fq.ident v) tokens st)
        ∧ (inst fq.ident = .opt none →
            eval o inst env (fq.wrap_if_option tokens) st = st))
    ∧ (¬ optionPre <+: fq._type → fq.wrap_if_option tokens = tokens) := by
  refine ⟨fun h => ?_, fun h hno => ?_, fun h => ?_⟩
  · have he : fq.wrap_if_option tokens
        = .ifLetSomeSome fq.get_optional_validator_param fq.ident tokens := by
      simp only [FieldQuoter.wrap_if_option, isPrefixOf_eq_true h]
      rfl
    refine ⟨he, fun v hv => ?_, fun hv => ?_⟩
    · rw [he]
      simp [eval, hv, get_optional_validator_param_ident]
    · rcases hv with hv | hv <;> rw [he] <;> simp [eval, hv]
  · have he : fq.wrap_if_option tokens
        = .ifLetSome fq.get_optional_validator_param fq.ident tokens := by
      simp only [FieldQuoter.wrap_if_option, isPrefixOf_eq_false hno,
        isPrefixOf_eq_true h]
      rfl
    refine ⟨he, fun v hv => ?_, fun hv => ?_⟩
    · rw [he]
      simp [eval, hv, get_optional_validator_param_ident]
    · rw [he]
      simp [eval, hv]
  · exact wrap_if_option_id tokens h

/-- Concrete oracle used to evaluate generated fragments on concrete
inputs: every predicate fails and the whole-structure function reports one
error. -/
def testOracle : Oracle where
  validateLength := fun _ _ _ _ => false
  validateRange := fun _ _ _ => false
  toF64 := fun v => v
  validateCreditCard := fun _ => false
  validatePhone := fun _ => false
  validateUrl := fun _ => false
  validateEmail := fun _ => false
  validateContains := fun _ _ => false
  regexIsMatch := fun _ _ => false
  customFn := fun _ _ => none
  schemaFn := fun _ => some ⟨"schema_fail", none, []⟩

/-- Witness for C1 at concrete inputs: a doubly-optional field gets two
guards and an absent outer layer yields an unchanged state, while a
non-optional field's fragment is unmodified. -/
theorem wrap_if_option_spec_witness :
    FieldQuoter.wrap_if_option ⟨"a", "a", "Option<Option<i32>>".toList⟩
        (.ifNotCheck (.email (.unwrapped "a")) ⟨"email", none, [], "a"⟩)
      = .ifLetSomeSome (Pat.byValue "a") "a"
          (.ifNotCheck (.email (.unwrapped "a")) ⟨"email", none, [], "a"⟩)
    ∧ eval testOracle (fun _ => .opt2 none) (fun _ => none)
        (FieldQuoter.wrap_if_option ⟨"a", "a", "Option<Option<i32>>".toList⟩
          (.ifNotCheck (.email (.unwrapped "a")) ⟨"email", none, [], "a"⟩))
        ⟨[], 0⟩ = ⟨[], 0⟩
    ∧ FieldQuoter.wrap_if_option ⟨"c", "c", "String".toList⟩
        (.ifNotCheck (.email (.refSelf "c")) ⟨"email", none, [], "c"⟩)
      = .ifNotCheck (.email (.refSelf "c")) ⟨"email", none, [], "c"⟩ := by
  refine ⟨((wrap_if_option_spec _ _ testOracle (fun _ => .opt2 none)
      (fun _ => none) ⟨[], 0⟩).1 (by decide)).1, ?_, ?_⟩
  · exact ((wrap_if_option_spec _ _ testOracle (fun _ => .opt2 none)
      (fun _ => none) ⟨[], 0⟩).1 (by decide)).2.2 (Or.inl rfl)
  · exact (wrap_if_option_spec _ _ testOracle (fun _ => .opt2 none)
      (fun _ => none) ⟨[], 0⟩).2.2 (by decide)

/-- Witness for C2 at concrete inputs: `Option<u64>` unwraps by value,
`Option<Option<String>>` unwraps by reference. -/
theorem get_optional_validator_param_spec_witness :
    FieldQuoter.get_optional_validator_param
        ⟨"a", "a", optionWrap "u64".toList⟩ = .byValue "a"
    ∧ FieldQuoter.get_optional_validator_param
        ⟨"b", "b", optionWrapTwice "String".toList⟩ = .byRef "b" :=
  ⟨(get_optional_validator_param_spec "a" "a" _ (by decide)).1.mpr
      (by decide),
   (get_optional_validator_param_spec "b" "b" _ (by decide)).2.2.2.mpr
      (by decide)⟩

/-- Witness for C3 at concrete inputs: optional, numeric-primitive and
plain owned types take the three access strategies. -/
theorem quote_validator_param_spec_witness :
    FieldQuoter.quote_validator_param ⟨"a", "a", "Option<String>".toList⟩
      = .unwrapped "a"
    ∧ FieldQuoter.quote_validator_param ⟨"b", "b", "i32".toList⟩
      = .selfVal "b"
    ∧ FieldQuoter.quote_validator_param ⟨"c", "c", "String".toList⟩
      = .refSelf "c" :=
  ⟨(quote_validator_param_spec "a" "a" _).1 (by decide),
   (quote_validator_param_spec "b" "b" _).2.1 (by decide) (by decide),
   (quote_validator_param_spec "c" "c" _).2.2 (by decide) (by decide)
     (by decide)⟩

theorem checkOf_wrap (fq : FieldQuoter) (t : Tokens) :
    checkOf (fq.wrap_if_option t) = checkOf t := by
  simp only [FieldQuoter.wrap_if_option]
  split
  · rfl
  · split <;> rfl

theorem failureParams_wrap (fq : FieldQuoter) (t : Tokens) :
    failureParams (fq.wrap_if_option t) = failureParams t := by
  simp only [FieldQuoter.wrap_if_option]
  split
  · rfl
  · split <;> rfl

/-- C4: the Length fragment's check carries the bounds as given, and on
failure it attaches exactly those of min, max and equal that were
specified — an unspecified bound contributes no parameter — plus the
offending value under the key "value". -/
theorem quote_length_validation_spec (fq : FieldQuoter) (c : String)
    (m : Option String) (min max equal : Option Nat) :
    ∃ frag, quote_length_validation fq ⟨c, m, .length min max equal⟩
        = some frag
      ∧ checkOf frag = some (.length min max equal fq.quote_validator_param)
      ∧ failureParams frag
          = (min.toList.map fun v => ("min", Arg.natLit v))
            ++ (max.toList.map fun v => ("max", Arg.natLit v))
            ++ (equal.toList.map fun v => ("equal", Arg.natLit v))
            ++ [("value", Arg.param fq.quote_validator_param)]
      ∧ (failureParams frag).map Prod.fst
          = (if min.isSome then ["min"] else [])
            ++ (if max.isSome then ["max"] else [])
            ++ (if equal.isSome then ["equal"] else []) ++ ["value"] := by
  refine ⟨_, rfl, ?_, ?_, ?_⟩
  · rw [checkOf_wrap]
    rfl
  · rw [failureParams_wrap]
    cases min <;> cases max <;> cases equal <;> rfl
  · rw [failureParams_wrap]
    cases min <;> cases max <;> cases equal <;> rfl

/-- C5: the Range fragment compares the accessed value cast `as f64`
against min and max, and on failure attaches exactly the three parameters
min, max and the offending value, under the keys "min", "max" and
"value". -/
theorem quote_range_validation_spec (fq : FieldQuoter) (c : String)
    (m : Option String) (min max : Int) :
    ∃ frag, quote_range_validation fq ⟨c, m, .range min max⟩ = some frag
      ∧ checkOf frag
          = some (.range min max (.asF64 fq.quote_validator_param))
      ∧ failureParams frag
          = [("min", Arg.numLit min), ("max", Arg.numLit max),
             ("value", Arg.param fq.quote_validator_param)] := by
  refine ⟨_, rfl, ?_, ?_⟩
  · rw [checkOf_wrap]
    rfl
  · rw [failureParams_wrap]
    rfl

/-- C6: the MustMatch fragment accesses both fields directly through the
enclosing structure (`&self.ident`, `&self.other`) — never via the
per-field access strategy — and compares them by equality; when the field
is not optional (no guard wraps the fragment), equal values leave the
error collection unchanged, while unequal values add exactly one error
under the field's declared name carrying the two values under the fixed
keys "value" and "other". -/
theorem quote_must_match_validation_spec (fq : FieldQuoter) (c : String)
    (m : Option String) (other : String) (o : Oracle) (inst : Inst)
    (env : Env) (st : EvalSt) :
    ∃ frag, quote_must_match_validation fq ⟨c, m, .mustMatch other⟩
        = some frag
      ∧ checkOf frag = some (.mustMatch fq.ident other)
      ∧ failureParams frag = [("value", Arg.selfField fq.ident),
          ("other", Arg.selfField other)]
      ∧ (¬ optionPre <+: fq._type →
          (inst fq.ident = inst other → eval o inst env frag st = st)
          ∧ (inst fq.ident ≠ inst other →
              eval o inst env frag st = { st with errors := st.errors ++
                [(fq.name, ⟨c, m, [("value", RVal.fv (inst fq.ident)),
                  ("other", RVal.fv (inst other))]⟩)] })) := by
  refine ⟨_, rfl, ?_, ?_, fun hno => ⟨fun he => ?_, fun hne => ?_⟩⟩
  · rw [checkOf_wrap]
    rfl
  · rw [failureParams_wrap]
    rfl
  · rw [wrap_if_option_id _ hno]
    simp [eval, evalCheck, validate_must_match, he]
  · rw [wrap_if_option_id _ hno]
    simp [eval, evalCheck, validate_must_match, hne, mkErr, evalArg,
      quote_error]

/-- Witness for C6 at concrete inputs: on a non-optional field, unequal
sibling values add exactly one error with the two fixed parameters, and
equal values add none. -/
theorem quote_must_match_validation_spec_witness :
    ∃ frag, quote_must_match_validation ⟨"a", "a", "String".toList⟩
        ⟨"must_match", none, .mustMatch "b"⟩ = some frag
      ∧ eval testOracle
          (fun x => if x = "a" then FieldVal.plain 1 else FieldVal.plain 2)
          (fun _ => none) frag ⟨[], 0⟩
        = ⟨[("a", ⟨"must_match", none, [("value", .fv (.plain 1)),
            ("other", .fv (.plain 2))]⟩)], 0⟩
      ∧ eval testOracle (fun _ => FieldVal.plain 1)
          (fun _ => none) frag ⟨[], 0⟩ = ⟨[], 0⟩ := by
  obtain ⟨frag, h1, _, _, h4⟩ :=
    quote_must_match_validation_spec ⟨"a", "a", "String".toList⟩
      "must_match" none "b" testOracle
      (fun x => if x = "a" then FieldVal.plain 1 else FieldVal.plain 2)
      (fun _ => none) ⟨[], 0⟩
  obtain ⟨frag2, h1b, _, _, h4e⟩ :=
    quote_must_match_validation_spec ⟨"a", "a", "String".toList⟩
      "must_match" none "b" testOracle (fun _ => FieldVal.plain 1)
      (fun _ => none) ⟨[], 0⟩
  refine ⟨frag, h1, (h4 (by decide)).2 (by decide), ?_⟩
  have hfe : frag = frag2 := Option.some_inj.mp (h1.symm.trans h1b)
  exact hfe ▸ (h4e (by decide)).1 rfl

/-- Counterexample to C7: `quote_credit_card_validation`, invoked with a
Length rule — a rule kind that is not its own — does not abort generation;
it emits its usual credit-card check fragment for that rule. -/
theorem quote_credit_card_mismatch_emits :
    quote_credit_card_validation ⟨"card", "card", "String".toList⟩
        ⟨"length", none, .length (some 1) none none⟩
      = some (.ifNotCheck (.creditCard (.refSelf "card"))
          ⟨"length", none, [("value", .param (.refSelf "card"))], "card"⟩) := by
  rfl

/-- C7 (amended): every translator that destructures a rule payload —
Length, Range, MustMatch, Custom, Contains, Regex — aborts generation
(`unreachable!()`) when invoked with a rule of any other kind, and never
returns a fragment; the translators of the payload-free kinds — Email,
Url, CreditCard, Phone — never inspect the rule kind and emit their own
fixed check for whatever rule they are given. -/
theorem translator_mismatch_spec (fq : FieldQuoter) (val : FieldValidation) :
    ((∀ min max equal, val.validator ≠ .length min max equal) →
      quote_length_validation fq val = none)
    ∧ ((∀ min max, val.validator ≠ .range min max) →
        quote_range_validation fq val = none)
    ∧ ((∀ other, val.validator ≠ .mustMatch other) →
        quote_must_match_validation fq val = none)
    ∧ ((∀ fn, val.validator ≠ .custom fn) →
        quote_custom_validation fq val = none)
    ∧ ((∀ needle, val.validator ≠ .contains needle) →
        quote_contains_validation fq val = none)
    ∧ ((∀ re, val.validator ≠ .regex re) →
        quote_regex_validation fq val = none)
    ∧ (quote_credit_card_validation fq val).isSome = true
    ∧ (quote_url_validation fq val).isSome = true
    ∧ (quote_email_validation fq val).isSome = true
    ∧ (quote_phone_validation fq val).isSome = true := by
  obtain ⟨c, m, v⟩ := val
  refine ⟨?_, ?_, ?_, ?_, ?_, ?_, rfl, rfl, rfl, rfl⟩
  · intro h
    cases v
    case length a b d => exact absurd rfl (h a b d)
    all_goals rfl
  · intro h
    cases v
    case range a b => exact absurd rfl (h a b)
    all_goals rfl
  · intro h
    cases v
    case mustMatch a => exact absurd rfl (h a)
    all_goals rfl
  · intro h
    cases v
    case custom a => exact absurd rfl (h a)
    all_goals rfl
  · intro h
    cases v
    case contains a => exact absurd rfl (h a)
    all_goals rfl
  · intro h
    cases v
    case regex a => exact absurd rfl (h a)
    all_goals rfl

/-- Witness for the amended C7 at a concrete input: the Length translator
given an Email rule aborts, while the credit-card translator given the
same Email rule emits a fragment. -/
theorem translator_mismatch_spec_witness :
    quote_length_validation ⟨"a", "a", "String".toList⟩
        ⟨"email", none, .email⟩ = none
    ∧ (quote_credit_card_validation ⟨"a", "a", "String".toList⟩
        ⟨"email", none, .email⟩).isSome = true :=
  ⟨(translator_mismatch_spec ⟨"a", "a", "String".toList⟩
      ⟨"email", none, .email⟩).1 (fun _ _ _ h => Validator.noConfusion h),
   (translator_mismatch_spec ⟨"a", "a", "String".toList⟩
      ⟨"email", none, .email⟩).2.2.2.2.2.2.1⟩

theorem eval_schemaCalls_eq (o : Oracle) (inst : Inst) :
    ∀ (t : Tokens) (env : Env) (st : EvalSt), t.hasSchemaCall = false →
      (eval o inst env t st).schemaCalls = st.schemaCalls := by
  intro t
  induction t with
  | empty => intro env st _; rfl
  | seq a b iha ihb =>
    intro env st h
    rw [Tokens.hasSchemaCall, Bool.or_eq_false_iff] at h
    rw [eval, ihb _ _ h.2, iha _ _ h.1]
  | ifLetSome pat fld body ih =>
    intro env st h
    rw [eval]
    split
    · exact ih _ _ h
    · rfl
  | ifLetSomeSome pat fld body ih =>
    intro env st h
    rw [eval]
    split
    · exact ih _ _ h
    · rfl
  | ifNotCheck chk onFail =>
    intro env st _
    rw [eval]
    split <;> rfl
  | customCheck fn arg msg fieldName =>
    intro env st _
    rw [eval]
    split <;> rfl
  | schemaCheck fn msg mutTok =>
    intro env st h
    exact absurd h (by rw [Tokens.hasSchemaCall]; simp)
  | ifEmptyErrors body ih =>
    intro env st h
    rw [eval]
    split
    · exact ih _ _ h
    · rfl

theorem seqAll_hasSchemaCall {l : List Tokens}
    (h : ∀ f ∈ l, f.hasSchemaCall = false) :
    (seqAll l).hasSchemaCall = false := by
  induction l with
  | nil => rfl
  | cons t ts ih =>
    show (Tokens.seq t (seqAll ts)).hasSchemaCall = false
    rw [Tokens.hasSchemaCall, Bool.or_eq_false_iff]
    exact ⟨h t (by simp), ih (fun f hf => h f (by simp [hf]))⟩

theorem eval_seqAll_append (o : Oracle) (inst : Inst) (env : Env) :
    ∀ (l₁ l₂ : List Tokens) (st : EvalSt),
      eval o inst env (seqAll (l₁ ++ l₂)) st
        = eval o inst env (seqAll l₂) (eval o inst env (seqAll l₁) st) := by
  intro l₁
  induction l₁ with
  | nil => intro l₂ st; rfl
  | cons t ts ih =>
    intro l₂ st
    show eval o inst env (Tokens.seq t (seqAll (ts ++ l₂))) st = _
    rw [eval, ih l₂ (eval o inst env t st)]
    rfl

/-- C8: a declared whole-structure rule is recorded under the reserved key
"__all__"; when marked skip-on-field-errors its match is wrapped in a
guard that only runs while the error collection is empty, so that — with
all per-field fragments assembled first — the whole-structure function is
never invoked when some per-field check already failed and is invoked
exactly once when every per-field check passed, adding one error under
"__all__" exactly when it reports a failure. -/
theorem quote_schema_validation_spec (v : SchemaValidation)
    (ffrags : List Tokens) (o : Oracle) (inst : Inst) (env : Env)
    (hf : ∀ f ∈ ffrags, f.hasSchemaCall = false)
    (hskip : v.skip_on_field_errors = true) :
    quote_schema_validation (some v)
        = .ifEmptyErrors (.schemaCheck v.function v.message v.message.isSome)
    ∧ ((eval o inst env (seqAll ffrags) ⟨[], 0⟩).errors ≠ [] →
        eval o inst env (assemble ffrags (some v)) ⟨[], 0⟩
          = eval o inst env (seqAll ffrags) ⟨[], 0⟩
        ∧ (eval o inst env (assemble ffrags (some v)) ⟨[], 0⟩).schemaCalls
            = 0)
    ∧ ((eval o inst env (seqAll ffrags) ⟨[], 0⟩).errors = [] →
        (eval o inst env (assemble ffrags (some v)) ⟨[], 0⟩).schemaCalls = 1
        ∧ (∀ e, o.schemaFn v.function = some e →
            (eval o inst env (assemble ffrags (some v)) ⟨[], 0⟩).errors
              = [("__all__", applyMessage v.message e)])
        ∧ (o.schemaFn v.function = none →
            (eval o inst env (assemble ffrags (some v)) ⟨[], 0⟩).errors
              = [])) := by
  have hq : quote_schema_validation (some v)
      = .ifEmptyErrors (.schemaCheck v.function v.message v.message.isSome) := by
    simp [quote_schema_validation, hskip]
  have hcalls : (eval o inst env (seqAll ffrags) ⟨[], 0⟩).schemaCalls = 0 :=
    eval_schemaCalls_eq o inst _ env ⟨[], 0⟩ (seqAll_hasSchemaCall hf)
  have hasm : eval o inst env (assemble ffrags (some v)) ⟨[], 0⟩
      = eval o inst env (quote_schema_validation (some v))
          (eval o inst env (seqAll ffrags) ⟨[], 0⟩) := by
    rw [assemble, eval_seqAll_append]
    rfl
  refine ⟨hq, fun hne => ?_, fun he => ?_⟩
  · have hskipped : eval o inst env (quote_schema_validation (some v))
        (eval o inst env (seqAll ffrags) ⟨[], 0⟩)
        = eval o inst env (seqAll ffrags) ⟨[], 0⟩ := by
      rw [hq, eval]
      simp [List.isEmpty_eq_false.mpr hne]
    rw [hasm, hskipped]
    exact ⟨rfl, hcalls⟩
  · rw [hasm, hq]
    have hie : (eval o inst env (seqAll ffrags)
        ⟨[], 0⟩).errors.isEmpty = true := by
      simp [he]
    refine ⟨?_, fun e hfe => ?_, fun hfn => ?_⟩
    · rw [eval]
      simp only [hie, if_true]
      rw [eval]
      cases hc : o.schemaFn v.function <;> simp [hcalls]
    · rw [eval]
      simp only [hie, if_true]
      rw [eval]
      simp [hfe, he]
    · rw [eval]
      simp only [hie, if_true]
      rw [eval]
      simp [hfn, he]

/-- Witness for C8 at concrete inputs: with one failing per-field fragment
the whole-structure function is never invoked; with no per-field failure
it is invoked exactly once and records its error under "__all__". -/
theorem quote_schema_validation_spec_witness :
    (eval testOracle (fun _ => .plain 0) (fun _ => none)
        (assemble [Tokens.ifNotCheck
            (.length (some 1) none none (.refSelf "x"))
            ⟨"length", none, [], "x"⟩]
          (some ⟨"check_all", none, true⟩)) ⟨[], 0⟩).schemaCalls = 0
    ∧ (eval testOracle (fun _ => .plain 0) (fun _ => none)
        (assemble [] (some ⟨"check_all", none, true⟩)) ⟨[], 0⟩).schemaCalls
        = 1
    ∧ (eval testOracle (fun _ => .plain 0) (fun _ => none)
        (assemble [] (some ⟨"check_all", none, true⟩)) ⟨[], 0⟩).errors
        = [("__all__", ⟨"schema_fail", none, []⟩)] := by
  refine ⟨((quote_schema_validation_spec ⟨"check_all", none, true⟩
      [Tokens.ifNotCheck (.length (some 1) none none (.refSelf "x"))
        ⟨"length", none, [], "x"⟩] testOracle (fun _ => .plain 0)
      (fun _ => none) (by decide) rfl).2.1 (by decide)).2, ?_, ?_⟩
  · exact ((quote_schema_validation_spec ⟨"check_all", none, true⟩ []
      testOracle (fun _ => .plain 0) (fun _ => none) (by simp) rfl).2.2
      rfl).1
  · exact ((quote_schema_validation_spec ⟨"check_all", none, true⟩ []
      testOracle (fun _ => .plain 0) (fun _ => none) (by simp) rfl).2.2
      rfl).2.1 ⟨"schema_fail", none, []⟩ rfl

/-- C9: for Custom and Regex rules the textual path is parsed into a
code-level path at generation time; generation aborts when the path string
is unparseable, and otherwise the emitted fragment is fully determined by
the parsed path — generation consumes no description of the program's
symbols, so it never checks that the named item exists. -/
theorem custom_regex_parse_spec (fq : FieldQuoter) (c : String)
    (m : Option String) (s : String) :
    (parseRustPath s = none →
      quote_custom_validation fq ⟨c, m, .custom s⟩ = none)
    ∧ (∀ p, parseRustPath s = some p →
        quote_custom_validation fq ⟨c, m, .custom s⟩
          = some (fq.wrap_if_option
              (.customCheck p fq.quote_validator_param m fq.name)))
    ∧ (parseRustPath s = none →
        quote_regex_validation fq ⟨c, m, .regex s⟩ = none)
    ∧ (∀ p, parseRustPath s = some p →
        quote_regex_validation fq ⟨c, m, .regex s⟩
          = some (fq.wrap_if_option (.ifNotCheck
              (.regexMatch p fq.quote_validator_param)
              ⟨c, m, [("value", .param fq.quote_validator_param)],
                fq.name⟩))) := by
  refine ⟨fun h => ?_, fun p hp => ?_, fun h => ?_, fun p hp => ?_⟩
  · simp [quote_custom_validation, h]
  · simp [quote_custom_validation, hp]
  · simp [quote_regex_validation, h]
  · simp [quote_regex_validation, hp, quote_error]

/-- Witness for C9 at concrete inputs: an unparseable path aborts both
translators, and a well-formed two-segment path yields the fragment. -/
theorem custom_regex_parse_spec_witness :
    quote_custom_validation ⟨"a", "a", "String".toList⟩
        ⟨"custom", none, .custom "not a path"⟩ = none
    ∧ quote_custom_validation ⟨"a", "a", "String".toList⟩
        ⟨"custom", none, .custom "validators::check_a"⟩
      = some (.customCheck ⟨["validators", "check_a"]⟩ (.refSelf "a")
          none "a")
    ∧ quote_regex_validation ⟨"a", "a", "String".toList⟩
        ⟨"regex", none, .regex "not a path"⟩ = none :=
  ⟨(custom_regex_parse_spec ⟨"a", "a", "String".toList⟩ "custom" none
      "not a path").1 (by decide),
   (custom_regex_parse_spec ⟨"a", "a", "String".toList⟩ "custom" none
      "validators::check_a").2.1 ⟨["validators", "check_a"]⟩ (by decide),
   (custom_regex_parse_spec ⟨"a", "a", "String".toList⟩ "regex" none
      "not a path").2.2.1 (by decide)⟩

theorem seqAll_hasSchemaCall_any (l : List Tokens) :
    (seqAll l).hasSchemaCall = l.any Tokens.hasSchemaCall := by
  induction l with
  | nil => rfl
  | cons t ts ih =>
    show (Tokens.seq t (seqAll ts)).hasSchemaCall = _
    simp only [Tokens.hasSchemaCall, ih, List.any_cons]

/-- C10: with no declared Structure Rule the schema translator returns the
empty fragment: the assembled procedure contains no whole-structure check
beyond those of the per-field fragments, and it evaluates exactly as the
per-field fragments alone. -/
theorem quote_schema_validation_none_spec :
    quote_schema_validation none = Tokens.empty
    ∧ ∀ (ffrags : List Tokens) (o : Oracle) (inst : Inst) (env : Env)
        (st : EvalSt),
        eval o inst env (assemble ffrags none) st
          = eval o inst env (seqAll ffrags) st
        ∧ (assemble ffrags none).hasSchemaCall
          = ffrags.any Tokens.hasSchemaCall := by
  refine ⟨rfl, fun ffrags o inst env st => ⟨?_, ?_⟩⟩
  · rw [assemble, eval_seqAll_append]
    rfl
  · rw [assemble, seqAll_hasSchemaCall_any]
    simp [quote_schema_validation, Tokens.hasSchemaCall]
